import Mathlib

/-!
# Button code table of `button_definitions.h`

The header consists of object-like `#define` directives only, each binding a
button name to a hexadecimal integer constant.  Every directive is embedded
as a constant of the same name (a C hexadecimal constant of this size has
type `int`, hence `Int`), and the header as a whole as the list of its
directives in file order.  `resolve` is the preprocessor's view of the
header: the replacement a name expands to, if the name is defined.
-/

namespace ButtonDefinitions

/-! ## The directives, line by line -/

/-- Line 1: `#define POWER 0x45`. -/
def POWER : Int := 0x45

/-- Line 3: `#define VOLUP 0x46`. -/
def VOLUP : Int := 0x46

/-- Line 4: `#define VOLDOWN 0x15`. -/
def VOLDOWN : Int := 0x15

/-- Line 6: `#define FUNC 0x47`. -/
def FUNC : Int := 0x47

/-- Line 8: `#define SEEK_LEFT 0x44`. -/
def SEEK_LEFT : Int := 0x44

/-- Line 9: `#define PLAY 0x40`. -/
def PLAY : Int := 0x40

/-- Line 10: `#define SEEK_RIGHT 0x43`. -/
def SEEK_RIGHT : Int := 0x43

/-- Line 12: `#define DOWN 0x7`. -/
def DOWN : Int := 0x7

/-- Line 13: `#define UP 0x9`. -/
def UP : Int := 0x9

/-- Line 15: `#define EQ 0x19`. -/
def EQ : Int := 0x19

/-- Line 16: `#define REPT 0xD`. -/
def REPT : Int := 0xD

/-- Line 18: `#define ZERO 0x16`. -/
def ZERO : Int := 0x16

/-- Line 19: `#define ONE 0xC`. -/
def ONE : Int := 0xC

/-- Line 20: `#define TWO 0x18`. -/
def TWO : Int := 0x18

/-- Line 21: `#define THREE 0x5E`. -/
def THREE : Int := 0x5E

/-- Line 22: `#define FOUR 0x8`. -/
def FOUR : Int := 0x8

/-- Line 23: `#define FIVE 0x1C`. -/
def FIVE : Int := 0x1C

/-- Line 24: `#define SIX 0x5A`. -/
def SIX : Int := 0x5A

/-- Line 25: `#define SEVEN 0x42`. -/
def SEVEN : Int := 0x42

/-- Line 26: `#define EIGHT 0x52`. -/
def EIGHT : Int := 0x52

/-- Line 27: `#define NINE 0x4A`. -/
def NINE : Int := 0x4A

/-! ## The header as a whole -/

/-- One `#define NAME VALUE` directive. -/
structure Define where
  /-- The identifier being defined. -/
  name : String
  /-- The integer constant it is replaced by. -/
  value : Int
  deriving DecidableEq, Repr

/-- The directives of `button_definitions.h`, in file order. -/
def button_definitions : List Define :=
  [ ⟨"POWER", POWER⟩,
    ⟨"VOLUP", VOLUP⟩,
    ⟨"VOLDOWN", VOLDOWN⟩,
    ⟨"FUNC", FUNC⟩,
    ⟨"SEEK_LEFT", SEEK_LEFT⟩,
    ⟨"PLAY", PLAY⟩,
    ⟨"SEEK_RIGHT", SEEK_RIGHT⟩,
    ⟨"DOWN", DOWN⟩,
    ⟨"UP", UP⟩,
    ⟨"EQ", EQ⟩,
    ⟨"REPT", REPT⟩,
    ⟨"ZERO", ZERO⟩,
    ⟨"ONE", ONE⟩,
    ⟨"TWO", TWO⟩,
    ⟨"THREE", THREE⟩,
    ⟨"FOUR", FOUR⟩,
    ⟨"FIVE", FIVE⟩,
    ⟨"SIX", SIX⟩,
    ⟨"SEVEN", SEVEN⟩,
    ⟨"EIGHT", EIGHT⟩,
    ⟨"NINE", NINE⟩ ]

/-- Macro lookup in an arbitrary list of directives: the value of the first
directive that defines `n`. -/
def resolveIn (ds : List Define) (n : String) : Option Int :=
  (ds.find? (fun d => d.name == n)).map Define.value

/-- What a name expands to after including the header; `none` for an
identifier the header does not define. -/
def resolve (n : String) : Option Int :=
  resolveIn button_definitions n

/-- The identifiers the header defines, in file order. -/
def defined_names : List String :=
  button_definitions.map Define.name

/-! ## The documented table -/

/-- One row of the documented "Full enumerated value set": the name, the
value of the Hex column and the value of the Decimal column. -/
structure DocumentedRow where
  /-- Column "Name". -/
  name : String
  /-- Column "Hex". -/
  hex : Int
  /-- Column "Decimal". -/
  decimal : Int
  deriving DecidableEq, Repr

/-- The documented name/value table, row by row as the specification prints
it.  This definition follows the specification, not the header; it is what
the header is compared against. -/
def documented_table : List DocumentedRow :=
  [ ⟨"POWER", 0x45, 69⟩,
    ⟨"VOLUP", 0x46, 70⟩,
    ⟨"VOLDOWN", 0x15, 21⟩,
    ⟨"FUNC", 0x47, 71⟩,
    ⟨"SEEK_LEFT", 0x44, 68⟩,
    ⟨"PLAY", 0x40, 64⟩,
    ⟨"SEEK_RIGHT", 0x43, 67⟩,
    ⟨"DOWN", 0x07, 7⟩,
    ⟨"UP", 0x09, 9⟩,
    ⟨"EQ", 0x19, 25⟩,
    ⟨"REPT", 0x0D, 13⟩,
    ⟨"ZERO", 0x16, 22⟩,
    ⟨"ONE", 0x0C, 12⟩,
    ⟨"TWO", 0x18, 24⟩,
    ⟨"THREE", 0x5E, 94⟩,
    ⟨"FOUR", 0x08, 8⟩,
    ⟨"FIVE", 0x1C, 28⟩,
    ⟨"SIX", 0x5A, 90⟩,
    ⟨"SEVEN", 0x42, 66⟩,
    ⟨"EIGHT", 0x52, 82⟩,
    ⟨"NINE", 0x4A, 74⟩ ]

/-- The 21 names the specification lists. -/
def documented_names : List String :=
  documented_table.map DocumentedRow.name

/-- A first-match scan of the header by value.  The header contains no lookup
function; this is only the concrete consumer at which the statement about
arbitrary lookups is instantiated. -/
def first_match (code : Int) : Option String :=
  (button_definitions.find? (fun d => d.value == code)).map Define.name

/-! ## Macro lookup in general -/

/-- A successful lookup returns the value of a directive that is in the list. -/
theorem resolveIn_mem {ds : List Define} {n : String} {v : Int}
    (h : resolveIn ds n = some v) : (⟨n, v⟩ : Define) ∈ ds := by
  unfold resolveIn at h
  obtain ⟨d, hd, hv⟩ := Option.map_eq_some'.mp h
  have hname : d.name = n := by simpa using List.find?_some hd
  have hmem : d ∈ ds := List.mem_of_find?_eq_some hd
  cases d
  simp only at hname hv
  subst hname hv
  exact hmem

/-- When no name is defined twice, every directive of the list is the one
that lookup of its name finds. -/
theorem resolveIn_of_mem {ds : List Define} (hnd : (ds.map Define.name).Nodup)
    {d : Define} (h : d ∈ ds) : resolveIn ds d.name = some d.value := by
  induction ds with
  | nil => cases h
  | cons e es ih =>
    rw [List.map_cons, List.nodup_cons] at hnd
    rcases List.mem_cons.mp h with rfl | htail
    · simp [resolveIn]
    · have hne : e.name ≠ d.name := by
        intro heq
        exact hnd.1 (heq ▸ List.mem_map_of_mem Define.name htail)
      have hstep : resolveIn (e :: es) d.name = resolveIn es d.name := by
        simp [resolveIn, List.find?_cons, hne]
      rw [hstep]
      exact ih hnd.2 htail

/-- No name is defined twice in the header. -/
theorem defined_names_nodup : defined_names.Nodup := by decide

/-- A name expands to a value exactly when the header has that directive. -/
theorem resolve_iff_mem (n : String) (v : Int) :
    resolve n = some v ↔ (⟨n, v⟩ : Define) ∈ button_definitions :=
  ⟨resolveIn_mem, fun h => resolveIn_of_mem defined_names_nodup h⟩

/-! ## Properties of the table -/

/-- C1: for every row of the documented table, the header defines the row's
name with exactly the row's hexadecimal value, which is also the row's
decimal value; the directive itself is in the header. -/
theorem constants_equal_documented (r : DocumentedRow) (h : r ∈ documented_table) :
    resolve r.name = some r.hex ∧ resolve r.name = some r.decimal ∧
      (⟨r.name, r.hex⟩ : Define) ∈ button_definitions := by
  have key : ∀ q ∈ documented_table,
      resolve q.name = some q.hex ∧ resolve q.name = some q.decimal ∧
        (⟨q.name, q.hex⟩ : Define) ∈ button_definitions := by decide
  exact key r h

/-- Instance of `constants_equal_documented` at the row of `THREE`. -/
theorem constants_equal_documented_witness :
    (⟨"THREE", 0x5E, 94⟩ : DocumentedRow) ∈ documented_table ∧
      resolve "THREE" = some 0x5E ∧ resolve "THREE" = some 94 ∧
      (⟨"THREE", 0x5E⟩ : Define) ∈ button_definitions :=
  ⟨by decide, constants_equal_documented ⟨"THREE", 0x5E, 94⟩ (by decide)⟩

/-- C2: the header defines exactly the 21 documented names.  For any
identifier `n`: it is defined iff it is documented, the number of directives
that define it is one if it is documented and zero otherwise (none missing,
none extra, none defined twice), there are 21 directives and 21 documented
names, and no name occurs twice in either list. -/
theorem defined_names_exact (n : String) :
    (n ∈ defined_names ↔ n ∈ documented_names) ∧
      ((resolve n).isSome ↔ n ∈ documented_names) ∧
      (button_definitions.filter (fun d => d.name == n)).length
        = (if n ∈ documented_names then 1 else 0) ∧
      button_definitions.length = 21 ∧ documented_names.length = 21 ∧
      defined_names.Nodup ∧ documented_names.Nodup := by
  have hsame : defined_names = documented_names := by decide
  have hcount : (button_definitions.filter (fun d => d.name == n)).length
      = (if n ∈ documented_names then 1 else 0) := by
    by_cases hn : n ∈ documented_names
    · have key : ∀ m ∈ documented_names,
          (button_definitions.filter (fun d => d.name == m)).length = 1 := by decide
      rw [if_pos hn]
      exact key n hn
    · have key : ∀ d ∈ button_definitions, d.name ∈ documented_names := by decide
      have hnil : button_definitions.filter (fun d => d.name == n) = [] := by
        rw [List.filter_eq_nil_iff]
        intro d hd hdn
        exact hn ((beq_iff_eq.mp hdn) ▸ key d hd)
      rw [if_neg hn, hnil]
      rfl
  have hsome : (resolve n).isSome ↔ n ∈ documented_names := by
    rw [← hsame]
    constructor
    · intro h
      obtain ⟨v, hv⟩ := Option.isSome_iff_exists.mp h
      exact List.mem_map_of_mem Define.name ((resolve_iff_mem n v).mp hv)
    · intro h
      obtain ⟨d, hd, rfl⟩ := List.mem_map.mp h
      exact Option.isSome_iff_exists.mpr ⟨d.value, resolveIn_of_mem defined_names_nodup hd⟩
  exact ⟨by rw [hsame], hsome, hcount, by decide, by decide, defined_names_nodup, by decide⟩

/-- C3: every value the header defines lies in the 8-bit unsigned range. -/
theorem values_in_byte_range (n : String) (v : Int) (h : resolve n = some v) :
    0x00 ≤ v ∧ v ≤ 0xFF := by
  have key : ∀ d ∈ button_definitions, 0x00 ≤ d.value ∧ d.value ≤ 0xFF := by decide
  exact key ⟨n, v⟩ ((resolve_iff_mem n v).mp h)

/-- Instance of `values_in_byte_range` at `VOLDOWN`. -/
theorem values_in_byte_range_witness :
    resolve "VOLDOWN" = some 0x15 ∧ (0x00 : Int) ≤ 0x15 ∧ (0x15 : Int) ≤ 0xFF :=
  ⟨by decide, values_in_byte_range "VOLDOWN" 0x15 (by decide)⟩

/-- C4: `POWER` is the one name with value `0x45`, `THREE` the one name with
value `0x5E`, and no name has value `0xFF`.  Hence any reverse lookup that
only returns a name whose constant equals the code (`sound`) and only reports
no match when no constant equals the code (`complete`) yields `POWER` for
`0x45`, `THREE` for `0x5E` and no match for `0xFF`. -/
theorem reverse_lookup_scenarios (lookup : Int → Option String)
    (sound : ∀ c n, lookup c = some n → resolve n = some c)
    (complete : ∀ c, lookup c = none → ∀ n, resolve n ≠ some c) :
    (∀ n, resolve n = some 0x45 ↔ n = "POWER") ∧
      (∀ n, resolve n = some 0x5E ↔ n = "THREE") ∧
      (∀ n, resolve n ≠ some 0xFF) ∧
      lookup 0x45 = some "POWER" ∧ lookup 0x5E = some "THREE" ∧ lookup 0xFF = none := by
  have hpower : ∀ n, resolve n = some 0x45 ↔ n = "POWER" := by
    intro n
    constructor
    · intro h
      have key : ∀ d ∈ button_definitions, d.value = 0x45 → d.name = "POWER" := by decide
      exact key ⟨n, 0x45⟩ ((resolve_iff_mem n 0x45).mp h) rfl
    · rintro rfl
      decide
  have hthree : ∀ n, resolve n = some 0x5E ↔ n = "THREE" := by
    intro n
    constructor
    · intro h
      have key : ∀ d ∈ button_definitions, d.value = 0x5E → d.name = "THREE" := by decide
      exact key ⟨n, 0x5E⟩ ((resolve_iff_mem n 0x5E).mp h) rfl
    · rintro rfl
      decide
  have hnone : ∀ n, resolve n ≠ some 0xFF := by
    intro n h
    have key : ∀ d ∈ button_definitions, d.value ≠ 0xFF := by decide
    exact key ⟨n, 0xFF⟩ ((resolve_iff_mem n 0xFF).mp h) rfl
  refine ⟨hpower, hthree, hnone, ?_, ?_, ?_⟩
  · cases h : lookup 0x45 with
    | none => exact absurd ((hpower "POWER").mpr rfl) (complete 0x45 h "POWER")
    | some n => rw [(hpower n).mp (sound 0x45 n h)]
  · cases h : lookup 0x5E with
    | none => exact absurd ((hthree "THREE").mpr rfl) (complete 0x5E h "THREE")
    | some n => rw [(hthree n).mp (sound 0x5E n h)]
  · cases h : lookup 0xFF with
    | none => rfl
    | some n => exact absurd (sound 0xFF n h) (hnone n)

/-- Instance of `reverse_lookup_scenarios` at the first-match scan, which is
sound and complete and returns the three scenario results. -/
theorem reverse_lookup_scenarios_witness :
    (∀ c n, first_match c = some n → resolve n = some c) ∧
      (∀ c, first_match c = none → ∀ n, resolve n ≠ some c) ∧
      first_match 0x45 = some "POWER" ∧ first_match 0x5E = some "THREE" ∧
      first_match 0xFF = none := by
  have sound : ∀ c n, first_match c = some n → resolve n = some c := by
    intro c n h
    obtain ⟨d, hd, hn⟩ := Option.map_eq_some'.mp h
    have hv : d.value = c := by simpa using List.find?_some hd
    rw [← hn, ← hv]
    exact resolveIn_of_mem defined_names_nodup (List.mem_of_find?_eq_some hd)
  have complete : ∀ c, first_match c = none → ∀ n, resolve n ≠ some c := by
    intro c h n hn
    have hfind : button_definitions.find? (fun d => d.value == c) = none := by
      simpa [first_match] using h
    have hno := List.find?_eq_none.mp hfind ⟨n, c⟩ ((resolve_iff_mem n c).mp hn)
    simp at hno
  exact ⟨sound, complete, (reverse_lookup_scenarios first_match sound complete).2.2.2⟩

/-- C5: the name-to-value mapping is injective.  Two defined names with
different spelling have different values, two defined names with the same
value are the same name, and the 21 values are pairwise distinct. -/
theorem values_injective (n m : String) (v w : Int)
    (hn : resolve n = some v) (hm : resolve m = some w) :
    (n ≠ m → v ≠ w) ∧ (v = w → n = m) ∧
      (button_definitions.map Define.value).Nodup ∧
      (button_definitions.map Define.value).length = 21 := by
  have key : ∀ d ∈ button_definitions, ∀ e ∈ button_definitions,
      d.value = e.value → d.name = e.name := by decide
  have hinj : v = w → n = m := fun hvw =>
    key ⟨n, v⟩ ((resolve_iff_mem n v).mp hn) ⟨m, w⟩ ((resolve_iff_mem m w).mp hm) hvw
  exact ⟨fun hne hvw => hne (hinj hvw), hinj, by decide, by decide⟩

/-- Instance of `values_injective` at `VOLDOWN` and `REPT`. -/
theorem values_injective_witness :
    resolve "VOLDOWN" = some 0x15 ∧ resolve "REPT" = some 0xD ∧
      (("VOLDOWN" : String) ≠ "REPT" → (0x15 : Int) ≠ 0xD) ∧
      ((0x15 : Int) = 0xD → ("VOLDOWN" : String) = "REPT") ∧
      (button_definitions.map Define.value).Nodup ∧
      (button_definitions.map Define.value).length = 21 :=
  ⟨by decide, by decide, values_injective "VOLDOWN" "REPT" 0x15 0xD (by decide) (by decide)⟩

/-- C6: `DOWN` is `0x07`, `THREE` is `0x5E`, and every value the header
defines lies between the two, so it is neither zero nor `0x80` or more. -/
theorem values_between_down_and_three (n : String) (v : Int) (h : resolve n = some v) :
    resolve "DOWN" = some 0x07 ∧ resolve "THREE" = some 0x5E ∧
      DOWN ≤ v ∧ v ≤ THREE ∧ 0x07 ≤ v ∧ v ≤ 0x5E ∧ v ≠ 0 ∧ v < 0x80 := by
  have key : ∀ d ∈ button_definitions,
      DOWN ≤ d.value ∧ d.value ≤ THREE ∧ 0x07 ≤ d.value ∧ d.value ≤ 0x5E ∧
        d.value ≠ 0 ∧ d.value < 0x80 := by decide
  exact ⟨by decide, by decide, key ⟨n, v⟩ ((resolve_iff_mem n v).mp h)⟩

/-- Instance of `values_between_down_and_three` at `SIX`. -/
theorem values_between_down_and_three_witness :
    resolve "SIX" = some 0x5A ∧
      resolve "DOWN" = some 0x07 ∧ resolve "THREE" = some 0x5E ∧
      DOWN ≤ 0x5A ∧ (0x5A : Int) ≤ THREE ∧ (0x07 : Int) ≤ 0x5A ∧ (0x5A : Int) ≤ 0x5E ∧
      (0x5A : Int) ≠ 0 ∧ (0x5A : Int) < 0x80 :=
  ⟨by decide, values_between_down_and_three "SIX" 0x5A (by decide)⟩

end ButtonDefinitions
